import Mathlib

/-!
Shallow embedding of the result-retrieval core of `app.py` (Literature Search
Builder): the Europe PMC adapter `fetch_europe_pmc`, the PMC adapter
`fetch_pmc`, the aggregation step
`pd.concat([df_epmc, df_pmc]).drop_duplicates(subset=["DOI","PMCID"])`, and the
RIS exporter `make_ris`.

Python values flowing through the adapters (parsed JSON payloads and DataFrame
cells) are modelled by the `Json` type below; the Python value `None` (and the
pandas missing value NaN, which pandas treats interchangeably with `None` for
the operations used here) is `Json.null`.  Python operations that can raise are
modelled in the `Except PyError` monad.
-/

/-- The Python exceptions the modelled code can raise. -/
inductive PyError where
  | attributeError : PyError
  | indexError : PyError
  | keyError : PyError
  | typeError : PyError
  | valueError : PyError
deriving DecidableEq, Repr

mutual
/-- A Python value as produced by `json.loads` / stored in a DataFrame cell:
`None`, a bool, a string, an integer, a list, or a string-keyed dict. -/
inductive Json where
  | null : Json
  | bool : Bool → Json
  | str : String → Json
  | num : Int → Json
  | arr : JsonArr → Json
  | obj : JsonObj → Json
deriving Repr
/-- A Python list of `Json` values. -/
inductive JsonArr where
  | nil : JsonArr
  | cons : Json → JsonArr → JsonArr
deriving Repr
/-- A Python dict with string keys and `Json` values (insertion ordered). -/
inductive JsonObj where
  | nil : JsonObj
  | cons : String → Json → JsonObj → JsonObj
deriving Repr
end

/-- First value stored under a key, if any (Python dict lookup). -/
def JsonObj.lookup : JsonObj → String → Option Json
  | .nil, _ => none
  | .cons k v rest, key => if k == key then some v else JsonObj.lookup rest key

/-- The elements of a Python list, as a Lean list. -/
def JsonArr.toList : JsonArr → List Json
  | .nil => []
  | .cons x xs => x :: JsonArr.toList xs

/-- Build a Python list from a Lean list. -/
def JsonArr.ofList : List Json → JsonArr
  | [] => .nil
  | x :: xs => .cons x (JsonArr.ofList xs)

/-- The keys of a Python dict, in insertion order. -/
def JsonObj.keys : JsonObj → List String
  | .nil => []
  | .cons k _ rest => k :: JsonObj.keys rest

mutual
/-- Python `==` on the modelled values (structural equality). -/
def Json.beq : Json → Json → Bool
  | .null, .null => true
  | .bool a, .bool b => a == b
  | .str a, .str b => a == b
  | .num a, .num b => a == b
  | .arr a, .arr b => JsonArr.beq a b
  | .obj a, .obj b => JsonObj.beq a b
  | _, _ => false
/-- Python `==` on lists: elementwise. -/
def JsonArr.beq : JsonArr → JsonArr → Bool
  | .nil, .nil => true
  | .cons x xs, .cons y ys => Json.beq x y && JsonArr.beq xs ys
  | _, _ => false
/-- Python `==` on dicts (insertion-ordered association lists here). -/
def JsonObj.beq : JsonObj → JsonObj → Bool
  | .nil, .nil => true
  | .cons k v xs, .cons l w ys => k == l && Json.beq v w && JsonObj.beq xs ys
  | _, _ => false
end

mutual
/-- Python `repr` of a modelled value (used by `str` on containers). -/
def pyRepr : Json → String
  | .null => "None"
  | .bool b => if b then "True" else "False"
  | .str s => "'" ++ s ++ "'"
  | .num n => toString n
  | .arr l => "[" ++ String.intercalate ", " (pyReprArr l) ++ "]"
  | .obj kvs => "\x7b" ++ String.intercalate ", " (pyReprObj kvs) ++ "\x7d"
/-- `repr` of each list element. -/
def pyReprArr : JsonArr → List String
  | .nil => []
  | .cons x xs => pyRepr x :: pyReprArr xs
/-- `repr` of each dict entry. -/
def pyReprObj : JsonObj → List String
  | .nil => []
  | .cons k v rest => ("'" ++ k ++ "': " ++ pyRepr v) :: pyReprObj rest
end

/-- Python `str()` as used by f-string interpolation (`None` prints as
`"None"`, strings print verbatim, containers print via `repr`). -/
def pyStr : Json → String
  | .null => "None"
  | .bool b => if b then "True" else "False"
  | .str s => s
  | .num n => toString n
  | .arr l => pyRepr (.arr l)
  | .obj kvs => pyRepr (.obj kvs)

/-- Python truthiness of a modelled value (`if x:`). -/
def pyTruthy : Json → Bool
  | .null => false
  | .bool b => b
  | .str s => !s.data.isEmpty
  | .num n => n != 0
  | .arr l => !(JsonArr.beq l .nil)
  | .obj kvs => !(JsonObj.beq kvs .nil)

/-- `pd.notna` on a DataFrame cell: false exactly on the missing value. -/
def pdNotna : Json → Bool
  | .null => false
  | _ => true

/-- Python whitespace characters stripped by `str.strip()`. -/
def pyIsSpace (c : Char) : Bool :=
  c = ' ' || c = '\t' || c = '\n' || c = '\r' || c = '\x0b' || c = '\x0c'

/-- Python `str.strip()`: remove leading and trailing whitespace. -/
def pyStrip (s : String) : String :=
  String.mk (((s.data.dropWhile pyIsSpace).reverse.dropWhile pyIsSpace).reverse)

/-- Worker for `pySplitComma`: `acc` holds the current segment reversed. -/
def pySplitCommaAux : List Char → List Char → List String
  | [], acc => [String.mk acc.reverse]
  | c :: cs, acc =>
      if c = ',' then String.mk acc.reverse :: pySplitCommaAux cs []
      else pySplitCommaAux cs (c :: acc)

/-- Python `str.split(",")`: segments between commas, empty segments kept
(`"".split(",") == [""]`). -/
def pySplitComma (s : String) : List String :=
  pySplitCommaAux s.data []

/-- Whether `s` starts with `pre` (Python `str.startswith`). -/
def strStartsWith (s pre : String) : Bool :=
  pre.data.isPrefixOf s.data

/-- Python `d.get(key, default)` on a modelled value: dict lookup with a
default; any non-dict receiver raises `AttributeError`. -/
def pyDictGet (j : Json) (key : String) (default : Json) : Except PyError Json :=
  match j with
  | .obj kvs => .ok ((kvs.lookup key).getD default)
  | _ => .error .attributeError

/-- Python `d.get(key)`: one-argument form, default `None`. -/
def pyDictGet1 (j : Json) (key : String) : Except PyError Json :=
  pyDictGet j key .null

/-- Python `x[0]` on a modelled value: first list element (IndexError when
empty), first character of a string, `KeyError` for a string-keyed dict,
`TypeError` otherwise. -/
def pyIndex0 : Json → Except PyError Json
  | .arr .nil => .error .indexError
  | .arr (.cons x _) => .ok x
  | .str s =>
      match s.data with
      | [] => .error .indexError
      | c :: _ => .ok (.str (String.mk [c]))
  | .obj _ => .error .keyError
  | _ => .error .typeError

/-- Python `for x in j`: the iterated elements (list elements, characters of a
string, keys of a dict); non-iterables raise `TypeError`. -/
def pyIter : Json → Except PyError (List Json)
  | .arr l => .ok l.toList
  | .str s => .ok (s.data.map (fun c => Json.str (String.mk [c])))
  | .obj kvs => .ok (kvs.keys.map Json.str)
  | _ => .error .typeError

/-- One row of the result DataFrame, with the columns built by the adapters:
Title, Authors, Journal, Year, DOI, PMID, PMCID, OA, PDF. -/
structure Row where
  title : Json
  authors : Json
  journal : Json
  year : Json
  doi : Json
  pmid : Json
  pmcid : Json
  oa : Json
  pdf : Json
deriving Repr

/-- An HTTP response as seen by the adapters: the status code and the result of
`r.json()` on its body (`none` when the body is not parseable JSON, in which
case `r.json()` raises; the adapters never read anything else from the
response). -/
structure HttpResponse where
  status : Nat
  body : Option Json
deriving Repr

/-! ## Europe PMC adapter (`fetch_europe_pmc`, app.py lines 125-145) -/

/-- Mapping of one raw Europe PMC hit `h` into a result row (the dict built in
the loop body of `fetch_europe_pmc`): every field is `h.get(...)`, the OA
column is `"Yes" if h.get("isOpenAccess") == "Y" else "No"`, and the PDF column
is `h.get("fullTextUrlList", {}).get("fullTextUrl", [{}])[0].get("url")`. -/
def epmcRow (h : Json) : Except PyError Row := do
  let title ← pyDictGet1 h "title"
  let authors ← pyDictGet1 h "authorString"
  let journal ← pyDictGet1 h "journalTitle"
  let year ← pyDictGet1 h "pubYear"
  let doi ← pyDictGet1 h "doi"
  let pmid ← pyDictGet1 h "pmid"
  let pmcid ← pyDictGet1 h "pmcid"
  let isOA ← pyDictGet1 h "isOpenAccess"
  let ftul ← pyDictGet h "fullTextUrlList" (.obj .nil)
  let ftu ← pyDictGet ftul "fullTextUrl" (.arr (.cons (.obj .nil) .nil))
  let first ← pyIndex0 ftu
  let pdf ← pyDictGet1 first "url"
  return { title := title, authors := authors, journal := journal,
           year := year, doi := doi, pmid := pmid, pmcid := pmcid,
           oa := if Json.beq isOA (.str "Y") then .str "Yes" else .str "No",
           pdf := pdf }

/-- Body of `fetch_europe_pmc` after the single `requests.get`:
`hits = r.json().get("resultList", {}).get("result", [])` followed by the
per-hit row construction (an exception on any hit aborts the whole call). -/
def parseEpmcResponse (resp : HttpResponse) : Except PyError (List Row) := do
  let body ← match resp.body with
    | none => Except.error PyError.valueError
    | some b => Except.ok b
  let rl ← pyDictGet body "resultList" (.obj .nil)
  let resultJ ← pyDictGet rl "result" (.arr .nil)
  let hits ← pyIter resultJ
  hits.mapM epmcRow

/-- `fetch_europe_pmc(query, max_results)`: issues exactly one GET with params
`query` and `pageSize = max_results` against the given server, and parses the
response.  The second component counts the HTTP requests issued (the function
body contains a single `requests.get`, never a loop). -/
def fetch_europe_pmc (server : String → Nat → HttpResponse) (query : String)
    (max_results : Nat) : Except PyError (List Row) × Nat :=
  (parseEpmcResponse (server query max_results), 1)

/-- The JSON body a well-behaved Europe PMC server answers with when it holds
`allHits` and is asked for a page of `pageSize` hits (first page). -/
def epmcPageBody (allHits : List Json) (pageSize : Nat) : Json :=
  .obj (.cons "resultList"
    (.obj (.cons "result" (.arr (JsonArr.ofList (allHits.take pageSize))) .nil))
    .nil)

/-- A mocked Europe PMC upstream holding `allHits`: answers every request with
HTTP 200 and the first page of the requested size. -/
def epmcMockServer (allHits : List Json) : String → Nat → HttpResponse :=
  fun _ pageSize => ⟨200, some (epmcPageBody allHits pageSize)⟩

/-! ## PMC adapter (`fetch_pmc`, app.py lines 149-196) -/

/-- One `<article>` element as read by `fetch_pmc` from the efetch XML:
`findtext` results (`none` when the element is absent) for title, journal
title, publication year, PMCID and DOI, plus the `(surname, given-names)`
pairs of the author `<contrib>` elements. -/
structure XmlArticle where
  title : Option String
  journal : Option String
  year : Option String
  authors : List (Option String × Option String)
  pmcid : Option String
  doi : Option String
deriving Repr

/-- A `findtext` result as a DataFrame cell (`None` stays missing). -/
def optJson : Option String → Json
  | none => .null
  | some s => .str s

/-- A `findtext` result interpolated into an f-string (`None` prints as
`"None"`). -/
def pyFStr : Option String → String
  | none => "None"
  | some s => s

/-- `", ".join(f"{a.findtext('surname')} {a.findtext('given-names')}" ...)`. -/
def pmcAuthors (authors : List (Option String × Option String)) : String :=
  String.intercalate ", " (authors.map (fun sg => pyFStr sg.1 ++ " " ++ pyFStr sg.2))

/-- The row `fetch_pmc` appends for one parsed article: note the hard-coded
`"PMID": ""`, `"OA": "Yes"` and `"PDF": ""`. -/
def pmcRow (a : XmlArticle) : Row :=
  { title := optJson a.title
    authors := .str (pmcAuthors a.authors)
    journal := optJson a.journal
    year := optJson a.year
    doi := optJson a.doi
    pmid := .str ""
    pmcid := optJson a.pmcid
    oa := .str "Yes"
    pdf := .str "" }

/-- The esearch-phase id list:
`ids = r.json().get("esearchresult", {}).get("idlist", [])`. -/
def pmcIdsOf (resp : HttpResponse) : Except PyError (List Json) := do
  let body ← match resp.body with
    | none => Except.error PyError.valueError
    | some b => Except.ok b
  let er ← pyDictGet body "esearchresult" (.obj .nil)
  let idsJ ← pyDictGet er "idlist" (.arr .nil)
  pyIter idsJ

/-- `fetch_pmc`: one esearch request (its response is `esearchResp`); when the
id list is empty the function returns the empty frame immediately, otherwise it
issues one efetch request whose parsed articles are `efetchArticles` and maps
them to rows.  The second component of the result counts the HTTP requests
issued. -/
def fetch_pmc (esearchResp : HttpResponse) (efetchArticles : List XmlArticle) :
    Except PyError (List Row × Nat) := do
  let ids ← pmcIdsOf esearchResp
  if ids.isEmpty then
    return ([], 1)
  else
    return (efetchArticles.map pmcRow, 2)

/-! ## Aggregation (app.py line 211):
`pd.concat([df_epmc, df_pmc], ignore_index=True).drop_duplicates(subset=["DOI","PMCID"])` -/

/-- The pandas dedup key of a row: the pair of cells in the `subset` columns.
(pandas treats two missing cells as equal to each other here.) -/
def dedupKey (r : Row) : Json × Json := (r.doi, r.pmcid)

/-- Cell-pair equality as pandas `drop_duplicates` compares key tuples. -/
def keyBeq (a b : Json × Json) : Bool :=
  Json.beq a.1 b.1 && Json.beq a.2 b.2

/-- Whether a key tuple already occurred among the seen ones. -/
def seenHas (seen : List (Json × Json)) (k : Json × Json) : Bool :=
  seen.any (fun x => keyBeq x k)

/-- `drop_duplicates(subset=["DOI","PMCID"])` with the default `keep="first"`:
walk the rows, keeping a row exactly when its key tuple has not occurred
before. -/
def dropDupAux : List (Json × Json) → List Row → List Row
  | _, [] => []
  | seen, r :: rs =>
      if seenHas seen (dedupKey r) then dropDupAux seen rs
      else r :: dropDupAux (dedupKey r :: seen) rs

/-- `df.drop_duplicates(subset=["DOI","PMCID"])`. -/
def drop_duplicates (rows : List Row) : List Row :=
  dropDupAux [] rows

/-- Line 211: concatenate the two adapters' frames in invocation order, then
deduplicate. -/
def aggregate (dfEpmc dfPmc : List Row) : List Row :=
  drop_duplicates (dfEpmc ++ dfPmc)

/-- The key tuples recorded after walking `rows` starting from `seen`. -/
def seenAfter (seen : List (Json × Json)) : List Row → List (Json × Json)
  | [] => seen
  | r :: rs =>
      if seenHas seen (dedupKey r) then seenAfter seen rs
      else seenAfter (dedupKey r :: seen) rs

/-! ## RIS export (`make_ris`, app.py lines 218-237) -/

/-- The `AU  -` lines of one record: emitted only under `pd.notna(authors)`,
one line per comma-separated segment of the authors cell, each stripped; a
non-string truthy cell would raise at `.split`. -/
def risAuthorLines (authors : Json) : Except PyError (List String) :=
  if pdNotna authors then
    match authors with
    | .str s => .ok ((pySplitComma s).map (fun a => "AU  - " ++ pyStrip a))
    | _ => .error .attributeError
  else .ok []

/-- The RIS block of one row: `TY`, `TI`, `JO`, `PY` unconditionally (f-string
interpolation of the cell), the `AU` lines, then `DO`, `PM`, `PMCID` each
guarded by the truthiness of its cell, then `ER` and a blank line. -/
def risRecord (r : Row) : Except PyError (List String) := do
  let au ← risAuthorLines r.authors
  return ["TY  - JOUR",
          "TI  - " ++ pyStr r.title,
          "JO  - " ++ pyStr r.journal,
          "PY  - " ++ pyStr r.year]
    ++ au
    ++ (if pyTruthy r.doi then ["DO  - " ++ pyStr r.doi] else [])
    ++ (if pyTruthy r.pmid then ["PM  - " ++ pyStr r.pmid] else [])
    ++ (if pyTruthy r.pmcid then ["PMCID - " ++ pyStr r.pmcid] else [])
    ++ ["ER  -", ""]

/-- `make_ris(df)`: the blocks of all rows joined with newlines. -/
def make_ris (rows : List Row) : Except PyError String := do
  let blocks ← rows.mapM risRecord
  return String.intercalate "\n" blocks.flatten

/-! ## Deduplication as worded by the spec (for comparison with the code) -/

/-- A cell counts as empty for the spec's composite dedup key when it is
missing or the empty string. -/
def cellEmpty : Json → Bool
  | .null => true
  | .str s => s.data.isEmpty
  | _ => false

/-- Modelled from the spec (claim C1 wording): a record is a duplicate of an
earlier kept record when EITHER its non-empty DOI or its non-empty PMCID
matches that record's corresponding field. -/
def specEitherDup (kept : List Row) (r : Row) : Bool :=
  kept.any (fun s =>
    (!cellEmpty r.doi && Json.beq r.doi s.doi) ||
    (!cellEmpty r.pmcid && Json.beq r.pmcid s.pmcid))

/-- Modelled from the spec: walk the rows, dropping the duplicates in the sense
of `specEitherDup`, first occurrence kept. -/
def specEitherDedupAux : List Row → List Row → List Row
  | _, [] => []
  | kept, r :: rs =>
      if specEitherDup kept r then specEitherDedupAux kept rs
      else r :: specEitherDedupAux (kept ++ [r]) rs

/-- Modelled from the spec: the claim's either-key deduplication. -/
def specEitherDedup (rows : List Row) : List Row :=
  specEitherDedupAux [] rows

/-- The amended reading: a record is a duplicate of an earlier kept record
exactly when the whole (DOI, PMCID) cell pair matches (missing matching
missing). -/
def specPairDup (kept : List Row) (r : Row) : Bool :=
  kept.any (fun s => keyBeq (dedupKey s) (dedupKey r))

/-- Pair-key deduplication, first occurrence kept. -/
def specPairDedupAux : List Row → List Row → List Row
  | _, [] => []
  | kept, r :: rs =>
      if specPairDup kept r then specPairDedupAux kept rs
      else r :: specPairDedupAux (kept ++ [r]) rs

/-- Pair-key deduplication of a whole collection. -/
def specPairDedup (rows : List Row) : List Row :=
  specPairDedupAux [] rows

/-! ## Concrete inputs used by the individual claims -/

/-- A row with a DOI and PMCID `PMC1` (claim C1). -/
def rowDoiPmc1 : Row :=
  { title := .str "first", authors := .null, journal := .null, year := .null,
    doi := .str "10.1/x", pmid := .null, pmcid := .str "PMC1",
    oa := .str "No", pdf := .null }

/-- A row with the same DOI as `rowDoiPmc1` but PMCID `PMC2` (claim C1). -/
def rowDoiPmc2 : Row :=
  { title := .str "second", authors := .null, journal := .null, year := .null,
    doi := .str "10.1/x", pmid := .null, pmcid := .str "PMC2",
    oa := .str "No", pdf := .null }

/-- A row whose journal cell is missing (claim C2). -/
def rowNoJournal : Row :=
  { title := .str "T", authors := .null, journal := .null, year := .str "2020",
    doi := .null, pmid := .null, pmcid := .null, oa := .str "No", pdf := .null }

/-- The RIS block `make_ris` builds for `rowNoJournal` (claim C2). -/
def risBlockNoJournal : List String :=
  ["TY  - JOUR", "TI  - T", "JO  - None", "PY  - 2020", "ER  -", ""]

/-- A raw Europe PMC hit titled `A` (claim C3). -/
def epmcHitA : Json := .obj (.cons "title" (.str "A") .nil)

/-- A raw Europe PMC hit titled `B` (claim C3). -/
def epmcHitB : Json := .obj (.cons "title" (.str "B") .nil)

/-- The row `fetch_europe_pmc` builds from `epmcHitA` (claim C3). -/
def epmcRowA : Row :=
  { title := .str "A", authors := .null, journal := .null, year := .null,
    doi := .null, pmid := .null, pmcid := .null, oa := .str "No", pdf := .null }

/-- A row carrying no identifier at all, titled `A` (claim C4). -/
def rowNoIdA : Row :=
  { title := .str "A", authors := .null, journal := .null, year := .null,
    doi := .null, pmid := .null, pmcid := .null, oa := .str "No", pdf := .null }

/-- A different record, also carrying no identifier, titled `B` (claim C4). -/
def rowNoIdB : Row :=
  { title := .str "B", authors := .null, journal := .null, year := .null,
    doi := .null, pmid := .null, pmcid := .null, oa := .str "No", pdf := .null }

/-- A partially populated Europe PMC hit whose `fullTextUrlList.fullTextUrl`
is an empty list (claim C5). -/
def epmcBadHit : Json :=
  .obj (.cons "fullTextUrlList" (.obj (.cons "fullTextUrl" (.arr .nil) .nil)) .nil)

/-- A search response whose result list holds a good hit followed by
`epmcBadHit` (claim C5). -/
def epmcBadBody : Json :=
  .obj (.cons "resultList"
    (.obj (.cons "result" (.arr (.cons epmcHitA (.cons epmcBadHit .nil))) .nil))
    .nil)

/-- A server that always answers HTTP 500 with the JSON body `{}`
(claims C6). -/
def epmcErrServer : String → Nat → HttpResponse :=
  fun _ _ => ⟨500, some (.obj .nil)⟩

/-- A raw hit whose `isOpenAccess` field is `"Y"` (claim C8). -/
def oaHitY : Json := .obj (.cons "isOpenAccess" (.str "Y") .nil)

/-- The row built from `oaHitY` (claim C8). -/
def oaRowY : Row :=
  { title := .null, authors := .null, journal := .null, year := .null,
    doi := .null, pmid := .null, pmcid := .null, oa := .str "Yes", pdf := .null }

/-- An esearch body whose id list is empty (claim C10). -/
def pmcEmptyIdBody : Json :=
  .obj (.cons "esearchresult" (.obj (.cons "idlist" (.arr .nil) .nil)) .nil)

/-- An esearch body whose id list holds one id (claim C10). -/
def pmcOneIdBody : Json :=
  .obj (.cons "esearchresult"
    (.obj (.cons "idlist" (.arr (.cons (.str "123456") .nil)) .nil)) .nil)

/-- One parsed efetch article (claim C10). -/
def pmcArticleW : XmlArticle :=
  { title := some "W", journal := some "J", year := some "2021",
    authors := [(some "Doe", some "A")], pmcid := some "PMC9", doi := some "10.2/y" }

/-- A row whose authors cell is the string `Smith J, Doe A` (claim C7). -/
def rowSmith : Row :=
  { title := .str "T", authors := .str "Smith J, Doe A", journal := .str "J",
    year := .str "2020", doi := .str "10.1/z", pmid := .str "111",
    pmcid := .null, oa := .str "No", pdf := .null }

/-- The RIS block `make_ris` builds for `rowSmith` (claim C7). -/
def risBlockSmith : List String :=
  ["TY  - JOUR", "TI  - T", "JO  - J", "PY  - 2020",
   "AU  - Smith J", "AU  - Doe A", "DO  - 10.1/z", "PM  - 111", "ER  -", ""]

/-- The raw value stored under key `k` of a hit, when the hit is a dict and the
key is present (used to state what the OA mapping depends on). -/
def jsonField (h : Json) (k : String) : Option Json :=
  match h with
  | .obj kvs => kvs.lookup k
  | _ => none

/-! ## Shared lemmas -/

mutual
theorem jsonBeqRefl : (a : Json) → Json.beq a a = true
  | .null => rfl
  | .bool b => by simp [Json.beq]
  | .str s => by simp [Json.beq]
  | .num n => by simp [Json.beq]
  | .arr l => by simpa [Json.beq] using jsonArrBeqRefl l
  | .obj kvs => by simpa [Json.beq] using jsonObjBeqRefl kvs
theorem jsonArrBeqRefl : (l : JsonArr) → JsonArr.beq l l = true
  | .nil => rfl
  | .cons x xs => by simp [JsonArr.beq, jsonBeqRefl x, jsonArrBeqRefl xs]
theorem jsonObjBeqRefl : (kvs : JsonObj) → JsonObj.beq kvs kvs = true
  | .nil => rfl
  | .cons k v rest => by simp [JsonObj.beq, jsonBeqRefl v, jsonObjBeqRefl rest]
end

theorem keyBeq_refl (k : Json × Json) : keyBeq k k = true := by
  simp [keyBeq, jsonBeqRefl]

theorem Json.beq_str_iff (v : Json) (t : String) :
    Json.beq v (.str t) = true ↔ v = .str t := by
  cases v <;> simp [Json.beq]

theorem seenHas_cons (a k : Json × Json) (seen : List (Json × Json)) :
    seenHas (a :: seen) k = (keyBeq a k || seenHas seen k) := rfl

theorem dropDupAux_idem : (rows : List Row) → (seen : List (Json × Json)) →
    dropDupAux seen (dropDupAux seen rows) = dropDupAux seen rows
  | [], _ => rfl
  | r :: rs, seen => by
      cases h : seenHas seen (dedupKey r)
      · simp [dropDupAux, h, dropDupAux_idem rs (dedupKey r :: seen)]
      · simp [dropDupAux, h, dropDupAux_idem rs seen]

theorem dropDupAux_append : (xs ys : List Row) → (seen : List (Json × Json)) →
    dropDupAux seen (xs ++ ys)
      = dropDupAux seen xs ++ dropDupAux (seenAfter seen xs) ys
  | [], _, _ => rfl
  | x :: xs, ys, seen => by
      cases h : seenHas seen (dedupKey x)
      · simp [dropDupAux, seenAfter, h, dropDupAux_append xs ys (dedupKey x :: seen)]
      · simp [dropDupAux, seenAfter, h, dropDupAux_append xs ys seen]

theorem seenHas_seenAfter_mono : (xs : List Row) → (seen : List (Json × Json)) →
    (k : Json × Json) → seenHas seen k = true → seenHas (seenAfter seen xs) k = true
  | [], _, _, h => h
  | x :: xs, seen, k, h => by
      cases hx : seenHas seen (dedupKey x)
      · simp only [seenAfter, hx, Bool.false_eq_true, if_false]
        exact seenHas_seenAfter_mono xs (dedupKey x :: seen) k
          (by simp [seenHas_cons, h])
      · simp only [seenAfter, hx, if_true]
        exact seenHas_seenAfter_mono xs seen k h

theorem seenHas_seenAfter_self : (xs : List Row) → (seen : List (Json × Json)) →
    (r : Row) → r ∈ xs → seenHas (seenAfter seen xs) (dedupKey r) = true
  | x :: xs, seen, r, hmem => by
      rcases List.mem_cons.mp hmem with heq | hmem2
      · subst heq
        cases hx : seenHas seen (dedupKey r)
        · simp only [seenAfter, hx, Bool.false_eq_true, if_false]
          exact seenHas_seenAfter_mono xs (dedupKey r :: seen) (dedupKey r)
            (by simp [seenHas_cons, keyBeq_refl])
        · simp only [seenAfter, hx, if_true]
          exact seenHas_seenAfter_mono xs seen (dedupKey r) hx
      · cases hx : seenHas seen (dedupKey x)
        · simp only [seenAfter, hx, Bool.false_eq_true, if_false]
          exact seenHas_seenAfter_self xs (dedupKey x :: seen) r hmem2
        · simp only [seenAfter, hx, if_true]
          exact seenHas_seenAfter_self xs seen r hmem2

theorem dropDupAux_all_seen : (ys : List Row) → (seen : List (Json × Json)) →
    (∀ r ∈ ys, seenHas seen (dedupKey r) = true) → dropDupAux seen ys = []
  | [], _, _ => rfl
  | y :: ys, seen, h => by
      have hy := h y (List.mem_cons_self y ys)
      simp [dropDupAux, hy,
        dropDupAux_all_seen ys seen (fun r hr => h r (List.mem_cons_of_mem y hr))]

theorem specPairDup_append_singleton (kept : List Row) (r s : Row) :
    specPairDup (kept ++ [r]) s
      = (specPairDup kept s || keyBeq (dedupKey r) (dedupKey s)) := by
  simp [specPairDup, List.any_append]

theorem dropDupAux_eq_specPairAux : (rows : List Row) → (seen : List (Json × Json)) →
    (kept : List Row) → (∀ r : Row, seenHas seen (dedupKey r) = specPairDup kept r) →
    dropDupAux seen rows = specPairDedupAux kept rows
  | [], _, _, _ => rfl
  | r :: rs, seen, kept, hinv => by
      rw [dropDupAux, specPairDedupAux, hinv r]
      cases h : specPairDup kept r
      · simp only [Bool.false_eq_true, if_false]
        have hstep : ∀ s : Row,
            seenHas (dedupKey r :: seen) (dedupKey s) = specPairDup (kept ++ [r]) s := by
          intro s
          rw [seenHas_cons, hinv s, specPairDup_append_singleton, Bool.or_comm]
        rw [dropDupAux_eq_specPairAux rs (dedupKey r :: seen) (kept ++ [r]) hstep]
      · simp only [if_true]
        exact dropDupAux_eq_specPairAux rs seen kept hinv

theorem toList_ofList : (l : List Json) → (JsonArr.ofList l).toList = l
  | [] => rfl
  | x :: xs => by simp [JsonArr.ofList, JsonArr.toList, toList_ofList xs]

theorem mapM_epmcRow_ok : (hits : List Json) →
    (∀ h ∈ hits, ∃ row, epmcRow h = Except.ok row) →
    ∃ rows, hits.mapM epmcRow = Except.ok rows ∧ rows.length = hits.length
  | [], _ => ⟨[], rfl, rfl⟩
  | h :: hs, hall => by
      obtain ⟨row, hrow⟩ := hall h (List.mem_cons_self h hs)
      obtain ⟨rows, hrows, hlen⟩ :=
        mapM_epmcRow_ok hs (fun x hx => hall x (List.mem_cons_of_mem h hx))
      refine ⟨row :: rows, ?_, by simp [hlen]⟩
      rw [List.mapM_cons, hrow, hrows]
      rfl

theorem strStartsWith_append_false (a x p : String)
    (hfalse : strStartsWith a p = false) (hlen : p.data.length ≤ a.data.length) :
    strStartsWith (a ++ x) p = false := by
  unfold strStartsWith at hfalse ⊢
  rw [String.data_append]
  by_contra hcontra
  rw [Bool.not_eq_false, List.isPrefixOf_iff_prefix] at hcontra
  rw [Bool.eq_false_iff, ne_eq, List.isPrefixOf_iff_prefix] at hfalse
  exact hfalse (List.prefix_of_prefix_length_le hcontra (List.prefix_append _ _) hlen)

theorem risAuthorLines_shape (v : Json) (au : List String)
    (h : risAuthorLines v = Except.ok au) :
    ∀ l ∈ au, ∃ a, l = "AU  - " ++ a := by
  unfold risAuthorLines at h
  cases v with
  | str s =>
      simp only [pdNotna, if_true] at h
      injection h with h
      subst h
      intro l hl
      obtain ⟨a, _, ha⟩ := List.mem_map.mp hl
      exact ⟨pyStrip a, ha.symm⟩
  | null =>
      have hau : ([] : List String) = au := by simpa [pdNotna] using h
      subst hau
      intro l hl
      exact absurd hl (List.not_mem_nil l)
  | bool b => exact absurd h (by simp [pdNotna])
  | num n => exact absurd h (by simp [pdNotna])
  | arr l => exact absurd h (by simp [pdNotna])
  | obj kvs => exact absurd h (by simp [pdNotna])

theorem exceptBind_ok_iff {α β : Type} (e : Except PyError α) (f : α → Except PyError β) (b : β) :
    (e >>= f) = Except.ok b ↔ ∃ a, e = Except.ok a ∧ f a = Except.ok b := by
  cases e with
  | error err => simp [Bind.bind, Except.bind]
  | ok a => simp [Bind.bind, Except.bind]

/-! ## The claims -/

/-- C1, counterexample: on two records sharing a non-empty DOI but carrying
different PMCIDs, the claimed either-identifier deduplication (`specEitherDedup`,
worded from the spec) keeps only the first record, while the code
(`drop_duplicates` on the column pair) keeps both — a match on one identifier
alone does NOT suffice for removal. -/
theorem dedup_requires_pair_match_cex :
    rowDoiPmc1.doi = rowDoiPmc2.doi ∧ cellEmpty rowDoiPmc1.doi = false ∧
    specEitherDedup [rowDoiPmc1, rowDoiPmc2] = [rowDoiPmc1] ∧
    drop_duplicates [rowDoiPmc1, rowDoiPmc2] = [rowDoiPmc1, rowDoiPmc2] :=
  ⟨rfl, rfl, rfl, rfl⟩

/-- C1, amended: the aggregator concatenates the two adapters' results in
invocation order and removes a record exactly when its whole (DOI, PMCID) cell
pair equals an earlier record's pair (missing cells matching missing cells),
keeping the first occurrence; a match on only one of the two identifiers does
not remove a record. -/
theorem aggregate_eq_pair_dedup (dfEpmc dfPmc : List Row) :
    aggregate dfEpmc dfPmc = specPairDedup (dfEpmc ++ dfPmc) :=
  dropDupAux_eq_specPairAux (dfEpmc ++ dfPmc) [] [] (fun _ => rfl)

/-- C2, counterexample: for a record with an empty (missing) journal the RIS
export still emits a `JO  -` line, namely `JO  - None` — the empty field is not
omitted. -/
theorem ris_blank_journal_cex :
    pdNotna rowNoJournal.journal = false ∧
    risRecord rowNoJournal = Except.ok risBlockNoJournal ∧
    "JO  - None" ∈ risBlockNoJournal :=
  ⟨rfl, rfl, by decide⟩

/-- C2, amended: in every RIS block the `TI  -`, `JO  -` and `PY  -` lines are
emitted unconditionally (an empty field appearing as Python's rendering of the
cell, e.g. `None`), while the `DO  -` and `PM  -` lines are omitted exactly
when the DOI resp. PMID cell is falsy (missing or empty string), and present
when the cell is truthy. -/
theorem risRecord_lines (r : Row) (lines : List String)
    (h : risRecord r = Except.ok lines) :
    ("TI  - " ++ pyStr r.title) ∈ lines ∧
    ("JO  - " ++ pyStr r.journal) ∈ lines ∧
    ("PY  - " ++ pyStr r.year) ∈ lines ∧
    (pyTruthy r.doi = true → ("DO  - " ++ pyStr r.doi) ∈ lines) ∧
    (pyTruthy r.doi = false → ∀ l ∈ lines, strStartsWith l "DO  -" = false) ∧
    (pyTruthy r.pmid = false → ∀ l ∈ lines, strStartsWith l "PM  -" = false) := by
  cases hau : risAuthorLines r.authors with
  | error e =>
      unfold risRecord at h
      rw [hau] at h
      exact absurd h (by simp [Except.bind])
  | ok au =>
      unfold risRecord at h
      rw [hau] at h
      have hlines : lines =
          (["TY  - JOUR", "TI  - " ++ pyStr r.title, "JO  - " ++ pyStr r.journal,
            "PY  - " ++ pyStr r.year]
            ++ au
            ++ (if pyTruthy r.doi then ["DO  - " ++ pyStr r.doi] else [])
            ++ (if pyTruthy r.pmid then ["PM  - " ++ pyStr r.pmid] else [])
            ++ (if pyTruthy r.pmcid then ["PMCID - " ++ pyStr r.pmcid] else [])
            ++ ["ER  -", ""]) := by
        injection h with h
        exact h.symm
      subst hlines
      refine ⟨by simp, by simp, by simp, ?_, ?_, ?_⟩
      · intro hd
        simp [hd]
      · intro hd l hl
        simp only [hd, Bool.false_eq_true, if_false, List.append_nil, List.mem_append,
          List.mem_cons, List.mem_singleton, List.not_mem_nil, or_false, false_or,
          List.mem_ite_nil_right] at hl
        rcases hl with ((((h1 | h1 | h1 | h1) | h1) | ⟨_, h1⟩) | ⟨_, h1⟩) | h1 | h1
        · subst h1; decide
        · subst h1; exact strStartsWith_append_false "TI  - " _ "DO  -" (by decide) (by decide)
        · subst h1; exact strStartsWith_append_false "JO  - " _ "DO  -" (by decide) (by decide)
        · subst h1; exact strStartsWith_append_false "PY  - " _ "DO  -" (by decide) (by decide)
        · obtain ⟨a, ha⟩ := risAuthorLines_shape r.authors au hau l h1
          subst ha
          exact strStartsWith_append_false "AU  - " _ "DO  -" (by decide) (by decide)
        · subst h1; exact strStartsWith_append_false "PM  - " _ "DO  -" (by decide) (by decide)
        · subst h1; exact strStartsWith_append_false "PMCID - " _ "DO  -" (by decide) (by decide)
        · subst h1; decide
        · subst h1; decide
      · intro hp l hl
        simp only [hp, Bool.false_eq_true, if_false, List.append_nil, List.mem_append,
          List.mem_cons, List.mem_singleton, List.not_mem_nil, or_false, false_or,
          List.mem_ite_nil_right] at hl
        rcases hl with ((((h1 | h1 | h1 | h1) | h1) | ⟨_, h1⟩) | ⟨_, h1⟩) | h1 | h1
        · subst h1; decide
        · subst h1; exact strStartsWith_append_false "TI  - " _ "PM  -" (by decide) (by decide)
        · subst h1; exact strStartsWith_append_false "JO  - " _ "PM  -" (by decide) (by decide)
        · subst h1; exact strStartsWith_append_false "PY  - " _ "PM  -" (by decide) (by decide)
        · obtain ⟨a, ha⟩ := risAuthorLines_shape r.authors au hau l h1
          subst ha
          exact strStartsWith_append_false "AU  - " _ "PM  -" (by decide) (by decide)
        · subst h1; exact strStartsWith_append_false "DO  - " _ "PM  -" (by decide) (by decide)
        · subst h1; exact strStartsWith_append_false "PMCID - " _ "PM  -" (by decide) (by decide)
        · subst h1; decide
        · subst h1; decide

/-- C2, witness: instantiating `risRecord_lines` on the concrete record with a
missing journal: its `JO  - None` line is in the block, and no line of the
block is a `DO  -` line. -/
theorem risRecord_lines_witness :
    ("JO  - " ++ pyStr rowNoJournal.journal) ∈ risBlockNoJournal ∧
    strStartsWith "JO  - None" "DO  -" = false := by
  have h := risRecord_lines rowNoJournal risBlockNoJournal rfl
  exact ⟨h.2.1, h.2.2.2.2.1 rfl "JO  - None" h.2.1⟩

/-- C3, counterexample: an upstream holding N = 2 hits served in pages of size
1 (so ceil(N/pageSize) = 2 pages) — where the claim demands 2 records in 2
requests, `fetch_europe_pmc` issues exactly 1 request and returns only the 1
record of the first page. -/
theorem epmc_no_pagination_cex :
    fetch_europe_pmc (epmcMockServer [epmcHitA, epmcHitB]) "q" 1
      = (Except.ok [epmcRowA], 1) ∧
    [epmcHitA, epmcHitB].length = 2 ∧ [epmcRowA].length = 1 :=
  ⟨rfl, rfl, rfl⟩

/-- C3, amended: `fetch_europe_pmc` issues exactly one HTTP request per call,
with `pageSize` set to `max_results`, and returns only the hits of that single
page — min(pageSize, N) records — regardless of how many further pages the
upstream holds; it never paginates. -/
theorem epmc_single_page (allHits : List Json) (q : String) (pageSize : Nat)
    (hok : ∀ x ∈ allHits, ∃ row, epmcRow x = Except.ok row) :
    ∃ rows, fetch_europe_pmc (epmcMockServer allHits) q pageSize = (Except.ok rows, 1) ∧
      rows.length = min pageSize allHits.length := by
  obtain ⟨rows, hm, hlen⟩ := mapM_epmcRow_ok (allHits.take pageSize)
    (fun x hx => hok x (List.mem_of_mem_take hx))
  refine ⟨rows, ?_, by rw [hlen, List.length_take]⟩
  have hparse : parseEpmcResponse ⟨200, some (epmcPageBody allHits pageSize)⟩
      = ((JsonArr.ofList (allHits.take pageSize)).toList).mapM epmcRow := rfl
  rw [toList_ofList] at hparse
  show (parseEpmcResponse ⟨200, some (epmcPageBody allHits pageSize)⟩, 1)
      = (Except.ok rows, 1)
  rw [hparse, hm]

/-- C3, witness: `epmc_single_page` instantiated on an upstream holding one
well-formed hit and `max_results = 5`. -/
theorem epmc_single_page_witness :
    fetch_europe_pmc (epmcMockServer [epmcHitA]) "q" 5 = (Except.ok [epmcRowA], 1) ∧
    (1 : Nat) = min 5 1 := by
  obtain ⟨rows, heq, hlen⟩ := epmc_single_page [epmcHitA] "q" 5
    (by
      intro x hx
      rw [List.mem_singleton] at hx
      subst hx
      exact ⟨epmcRowA, rfl⟩)
  have h1 : (fetch_europe_pmc (epmcMockServer [epmcHitA]) "q" 5).1 = Except.ok rows := by
    rw [heq]
  have h2 : (fetch_europe_pmc (epmcMockServer [epmcHitA]) "q" 5).1
      = Except.ok [epmcRowA] := rfl
  have hrows : rows = [epmcRowA] := by
    injection h1.symm.trans h2
  subst hrows
  exact ⟨heq, by decide⟩

/-- C4: the code drops identifier-less records as duplicates of each other —
two distinct records whose DOI and PMCID (and PMID) are all missing collapse
to the first one, because pandas `drop_duplicates` treats two missing
(DOI, PMCID) pairs as equal; the spec says such records are never dropped. -/
theorem dedup_drops_identifierless_rows :
    drop_duplicates [rowNoIdA, rowNoIdB] = [rowNoIdA] ∧
    rowNoIdA.title ≠ rowNoIdB.title :=
  ⟨rfl, by simp [rowNoIdA, rowNoIdB]⟩

/-- C5: a partially populated hit whose `fullTextUrlList.fullTextUrl` is an
empty list makes the Europe PMC row mapping raise IndexError (`[{}])[0]` on an
empty list), and one such hit aborts the whole pull — the adapter does not map
the malformed hit to empty/absent values. -/
theorem epmc_empty_fulltext_list_raises :
    epmcRow epmcBadHit = Except.error PyError.indexError ∧
    parseEpmcResponse ⟨200, some epmcBadBody⟩ = Except.error PyError.indexError :=
  ⟨rfl, rfl⟩

/-- C6, counterexample: on an HTTP 500 response with JSON body `{}` both
adapters succeed with an empty result set instead of failing with an
UpstreamError — no error type exists in the code and the status code is never
inspected. -/
theorem status_never_checked_cex :
    fetch_europe_pmc epmcErrServer "q" 50 = (Except.ok [], 1) ∧
    fetch_pmc ⟨500, some (.obj .nil)⟩ [] = Except.ok ([], 1) :=
  ⟨rfl, rfl⟩

/-- C6, amended: the adapters never inspect the HTTP status code — the result
of a fetch depends only on the response body, so a non-success response whose
body parses as JSON is processed exactly like a success (typically yielding an
empty result set); only an unparseable body raises (a JSON decode error, not an
UpstreamError). -/
theorem fetch_ignores_status :
    (∀ (s₁ s₂ : Nat) (b : Option Json),
        parseEpmcResponse ⟨s₁, b⟩ = parseEpmcResponse ⟨s₂, b⟩) ∧
    (∀ (s₁ s₂ : Nat) (b : Option Json) (arts : List XmlArticle),
        fetch_pmc ⟨s₁, b⟩ arts = fetch_pmc ⟨s₂, b⟩ arts) :=
  ⟨fun _ _ _ => rfl, fun _ _ _ _ => rfl⟩

/-- C7, counterexample: an authors cell with a trailing comma produces an empty
`AU  - ` line — empty segments are not skipped. -/
theorem ris_empty_author_line_cex :
    risAuthorLines (Json.str "Smith J,") = Except.ok ["AU  - Smith J", "AU  - "] ∧
    "AU  - " ∈ ["AU  - Smith J", "AU  - "] :=
  ⟨rfl, by decide⟩

/-- C7, amended: the RIS export emits one `AU  -` line per comma-separated
segment of the authors string, each trimmed, with empty segments NOT skipped
(a trailing or doubled comma yields an empty `AU  - ` line); in particular
`"Smith J, Doe A"` yields exactly `AU  - Smith J` and `AU  - Doe A`. -/
theorem ris_author_lines_split :
    (∀ s : String, risAuthorLines (Json.str s)
        = Except.ok ((pySplitComma s).map (fun a => "AU  - " ++ pyStrip a))) ∧
    risAuthorLines (Json.str "Smith J, Doe A")
      = Except.ok ["AU  - Smith J", "AU  - Doe A"] ∧
    risAuthorLines (Json.str "Smith J,, Doe A,")
      = Except.ok ["AU  - Smith J", "AU  - ", "AU  - Doe A", "AU  - "] ∧
    risRecord rowSmith = Except.ok risBlockSmith :=
  ⟨fun _ => rfl, rfl, rfl, rfl⟩

/-- C8: the Europe PMC adapter maps a row to the open-access state `"Yes"`
exactly when the raw hit carries the field `isOpenAccess` with string value
`"Y"`; every other value, every other type, and absence of the field map to
`"No"` — never to `"Yes"`. -/
theorem epmc_oa_flag (h : Json) (row : Row) (hok : epmcRow h = Except.ok row) :
    (row.oa = Json.str "Yes" ↔ jsonField h "isOpenAccess" = some (Json.str "Y")) ∧
    (row.oa = Json.str "Yes" ∨ row.oa = Json.str "No") := by
  cases h with
  | null => exact absurd hok (by simp [epmcRow, pyDictGet1, pyDictGet, Bind.bind, Except.bind])
  | bool b => exact absurd hok (by simp [epmcRow, pyDictGet1, pyDictGet, Bind.bind, Except.bind])
  | str s => exact absurd hok (by simp [epmcRow, pyDictGet1, pyDictGet, Bind.bind, Except.bind])
  | num n => exact absurd hok (by simp [epmcRow, pyDictGet1, pyDictGet, Bind.bind, Except.bind])
  | arr l => exact absurd hok (by simp [epmcRow, pyDictGet1, pyDictGet, Bind.bind, Except.bind])
  | obj kvs =>
      have hok2 : (pyDictGet ((kvs.lookup "fullTextUrlList").getD (.obj .nil))
            "fullTextUrl" (.arr (.cons (.obj .nil) .nil)) >>= fun ftu =>
          pyIndex0 ftu >>= fun first =>
          pyDictGet1 first "url" >>= fun pdf =>
          Except.ok { title := (kvs.lookup "title").getD .null,
                      authors := (kvs.lookup "authorString").getD .null,
                      journal := (kvs.lookup "journalTitle").getD .null,
                      year := (kvs.lookup "pubYear").getD .null,
                      doi := (kvs.lookup "doi").getD .null,
                      pmid := (kvs.lookup "pmid").getD .null,
                      pmcid := (kvs.lookup "pmcid").getD .null,
                      oa := if Json.beq ((kvs.lookup "isOpenAccess").getD .null) (.str "Y")
                            then Json.str "Yes" else Json.str "No",
                      pdf := pdf }) = Except.ok row := hok
      rw [exceptBind_ok_iff] at hok2
      obtain ⟨ftu, _, hok3⟩ := hok2
      rw [exceptBind_ok_iff] at hok3
      obtain ⟨first, _, hok4⟩ := hok3
      rw [exceptBind_ok_iff] at hok4
      obtain ⟨pdf, _, hok5⟩ := hok4
      have hrow : row.oa =
          (if Json.beq ((kvs.lookup "isOpenAccess").getD .null) (.str "Y")
           then Json.str "Yes" else Json.str "No") := by
        injection hok5 with hok5
        rw [← hok5]
      rw [hrow]
      constructor
      · cases hb : Json.beq ((kvs.lookup "isOpenAccess").getD .null) (.str "Y") with
        | true =>
            simp only [if_true]
            constructor
            · intro _
              cases hl : kvs.lookup "isOpenAccess" with
              | none =>
                  rw [hl] at hb
                  exact absurd hb (by simp [Json.beq])
              | some v =>
                  rw [hl] at hb
                  simp only [Option.getD_some] at hb
                  rw [(Json.beq_str_iff v "Y").mp hb] at hl
                  simpa [jsonField] using hl
            · intro _; trivial
        | false =>
            simp only [Bool.false_eq_true, if_false]
            constructor
            · intro hcontra
              exact absurd hcontra (by simp)
            · intro hcontra
              have hl : kvs.lookup "isOpenAccess" = some (Json.str "Y") := by
                simpa [jsonField] using hcontra
              rw [hl] at hb
              simp only [Option.getD_some] at hb
              rw [jsonBeqRefl] at hb
              exact absurd hb (by simp)
      · cases hb : Json.beq ((kvs.lookup "isOpenAccess").getD .null) (.str "Y") <;> simp

/-- C8, witness: `epmc_oa_flag` instantiated on the concrete hit whose
`isOpenAccess` is `"Y"`: the produced row's OA cell is `"Yes"`. -/
theorem epmc_oa_flag_witness :
    oaRowY.oa = Json.str "Yes" ∧ jsonField oaHitY "isOpenAccess" = some (Json.str "Y") :=
  ⟨(epmc_oa_flag oaHitY oaRowY rfl).1.mpr rfl, rfl⟩

/-- C9: deduplication is idempotent — re-running `drop_duplicates` on an
already-deduplicated collection changes nothing, and aggregating a
deduplicated collection with itself yields the same collection (hence the same
size and contents as deduplicating once). -/
theorem dedup_idempotent (rows : List Row) :
    drop_duplicates (drop_duplicates rows) = drop_duplicates rows ∧
    aggregate (drop_duplicates rows) (drop_duplicates rows) = drop_duplicates rows := by
  have hidem : drop_duplicates (drop_duplicates rows) = drop_duplicates rows :=
    dropDupAux_idem rows []
  refine ⟨hidem, ?_⟩
  show dropDupAux [] (drop_duplicates rows ++ drop_duplicates rows) = drop_duplicates rows
  rw [dropDupAux_append]
  rw [show dropDupAux [] (drop_duplicates rows) = drop_duplicates rows from hidem]
  rw [dropDupAux_all_seen (drop_duplicates rows) (seenAfter [] (drop_duplicates rows))
      (fun r hr => seenHas_seenAfter_self (drop_duplicates rows) [] r hr)]
  exact List.append_nil _

/-- C10: every row the PMC adapter produces has the PMID cell hard-coded to
`""` and the OA cell hard-coded to `"Yes"`, whatever the fetched article
holds; and when the esearch phase returns an empty id list the adapter returns
the empty result set after the single esearch request, issuing no efetch
request. -/
theorem pmc_constant_fields :
    (∀ (resp : HttpResponse) (arts : List XmlArticle) (rows : List Row) (n : Nat),
        fetch_pmc resp arts = Except.ok (rows, n) →
        ∀ r ∈ rows, r.pmid = Json.str "" ∧ r.oa = Json.str "Yes") ∧
    (∀ (resp : HttpResponse) (arts : List XmlArticle) (ids : List Json),
        pmcIdsOf resp = Except.ok ids → ids = [] →
        fetch_pmc resp arts = Except.ok ([], 1)) := by
  constructor
  · intro resp arts rows n hfetch r hr
    cases hids : pmcIdsOf resp with
    | error e =>
        unfold fetch_pmc at hfetch
        rw [hids] at hfetch
        exact absurd hfetch (by simp [Bind.bind, Except.bind])
    | ok ids =>
        unfold fetch_pmc at hfetch
        rw [hids] at hfetch
        have hfetch2 : (if ids.isEmpty then Except.ok (([] : List Row), (1 : Nat))
            else Except.ok (arts.map pmcRow, 2)) = Except.ok (rows, n) := hfetch
        cases hempty : ids.isEmpty with
        | true =>
            rw [hempty, if_pos rfl] at hfetch2
            injection hfetch2 with hfetch2
            cases hfetch2
            exact absurd hr (List.not_mem_nil r)
        | false =>
            rw [hempty] at hfetch2
            simp only [Bool.false_eq_true, if_false] at hfetch2
            injection hfetch2 with hfetch2
            cases hfetch2
            obtain ⟨a, _, ha⟩ := List.mem_map.mp hr
            rw [← ha]
            exact ⟨rfl, rfl⟩
  · intro resp arts ids hids hnil
    subst hnil
    unfold fetch_pmc
    rw [hids]
    rfl

/-- C10, witness: `pmc_constant_fields` instantiated on a one-article fetch
(its row has PMID `""` and OA `"Yes"`) and on an esearch response with an
empty id list (empty result after the single esearch request). -/
theorem pmc_constant_fields_witness :
    ((pmcRow pmcArticleW).pmid = Json.str "" ∧ (pmcRow pmcArticleW).oa = Json.str "Yes") ∧
    fetch_pmc ⟨200, some pmcEmptyIdBody⟩ [pmcArticleW] = Except.ok ([], 1) :=
  ⟨pmc_constant_fields.1 ⟨200, some pmcOneIdBody⟩ [pmcArticleW] [pmcRow pmcArticleW] 2 rfl
      (pmcRow pmcArticleW) (List.mem_singleton.mpr rfl),
   pmc_constant_fields.2 ⟨200, some pmcEmptyIdBody⟩ [pmcArticleW] [] rfl rfl⟩
